import Mathlib

set_option maxRecDepth 20000

/-!
Verification development for the Recipon URL metadata enrichment pipeline
(src/app.py). The Python functions are shallowly embedded as executable Lean
definitions over `List Char` / `String`; anchored regular expressions are
translated to explicit string operations, and the general-purpose search
patterns of the extractors are run through a small backtracking matcher that
mirrors the semantics of `re.search` on the concrete patterns used by the code.
-/

namespace Recipon

/-! ## Python string primitives -/

/-- The whitespace set recognised by Python's `str.strip()` and by `\s` in a
`re` pattern over `str` (`str.isspace` characters). -/
def isPySpace (c : Char) : Bool :=
  c == ' ' || c == '\t' || c == '\n' || c == '\r' || c == '\x0b' || c == '\x0c' ||
  c == '\x1c' || c == '\x1d' || c == '\x1e' || c == '\x1f' || c == '\x85' ||
  c == '\xa0' || c == '\u1680' || (0x2000 ≤ c.val.toNat && c.val.toNat ≤ 0x200a) ||
  c == '\u2028' || c == '\u2029' || c == '\u202f' || c == '\u205f' || c == '\u3000'

/-- Drop matching characters from the end of a list. -/
def dropEndWhile (p : Char → Bool) (l : List Char) : List Char :=
  (l.reverse.dropWhile p).reverse

/-- Python `str.strip()`. -/
def pyStrip (l : List Char) : List Char :=
  dropEndWhile isPySpace (l.dropWhile isPySpace)

/-- Python `str.strip(chars)`. -/
def pyStripChars (cs : List Char) (l : List Char) : List Char :=
  dropEndWhile (fun c => cs.contains c) (l.dropWhile (fun c => cs.contains c))

/-- Auxiliary state machine for `re.sub(r"\s+", " ", s)`: `prev` records whether
the previous character was part of a whitespace run already emitted as `' '`. -/
def collapseWsAux : Bool → List Char → List Char
  | _, [] => []
  | prev, c :: t =>
    if isPySpace c then
      if prev then collapseWsAux true t else ' ' :: collapseWsAux true t
    else
      c :: collapseWsAux false t

/-- `re.sub(r"\s+", " ", s)`: every maximal whitespace run becomes one space. -/
def collapseWs (l : List Char) : List Char := collapseWsAux false l

/-- `l` begins with `pre`. -/
def startsL (pre l : List Char) : Bool := l.take pre.length == pre

/-- `l` ends with `suf`. -/
def endsL (suf l : List Char) : Bool :=
  suf.length ≤ l.length && l.drop (l.length - suf.length) == suf

/-- Python substring containment `needle in hay`. -/
def containsL (needle : List Char) : List Char → Bool
  | [] => needle == []
  | c :: t => startsL needle (c :: t) || containsL needle t

/-- Python `str.lower()` restricted to the ASCII range (the keyword sets the
code matches against contain no cased characters, so the restriction does not
change any result of the embedded functions). -/
def pyLower (l : List Char) : List Char := l.map Char.toLower

/-! ## clean_dish_title (src/app.py lines 207-255) -/

/-- `_NOISE_WORDS` from src/app.py. -/
def noiseWords : List (List Char) :=
  ["レシピ".data, "作り方".data, "簡単".data, "人気".data, "おすすめ".data,
   "献立".data, "材料".data, "手順".data, "動画".data, "プロの".data,
   "定番".data, "料理".data, "キッチン".data]

/-- The separator characters of `_SPLIT_SEP_RE`. -/
def sepChars : List Char := ['｜', '|', '-', '–', '—', ':', '：', '／', '/']

/-- `_SPLIT_SEP_RE.split(s)[0].strip()`: everything before the first separator
character (the `\s*` around the separator is subsumed by the final strip). -/
def splitKeepLeft (l : List Char) : List Char :=
  pyStrip (l.takeWhile (fun c => !sepChars.contains c))

/-- `l` is entirely Python whitespace. -/
def allWs (l : List Char) : Bool := l.all isPySpace

/-- One bracketed alternative of `_TAIL_RE` (`【...】`, `(...)`, `（...）`):
an opening bracket, 1-40 characters none of which is the closing bracket, the
closing bracket, then only whitespace to the end. -/
def brMatch (op cl : Char) (l : List Char) : Bool :=
  match l with
  | [] => false
  | c :: rest =>
    c == op &&
    (let inner := rest.takeWhile (fun x => x != cl)
     decide (inner.length < rest.length) && decide (1 ≤ inner.length) &&
     decide (inner.length ≤ 40) && allWs (rest.drop (inner.length + 1)))

/-- The `by\s+\S+` / `By\s+\S+` alternative of `_TAIL_RE`, anchored to the end:
`by`, at least one whitespace, a nonempty non-whitespace run, trailing
whitespace only. -/
def byMatch (l : List Char) : Bool :=
  (startsL ['b', 'y'] l || startsL ['B', 'y'] l) &&
  (match l.drop 2 with
   | [] => false
   | c :: t =>
     isPySpace c &&
     (let l3 := (c :: t).dropWhile isPySpace
      !l3.isEmpty && allWs (l3.dropWhile (fun x => !isPySpace x))))

/-- Whether the whole of `l` matches `\s*(?:by\s+\S+|By\s+\S+|【...】|(...)|（...）)\s*`. -/
def tailAltMatch (l : List Char) : Bool :=
  let l1 := l.dropWhile isPySpace
  byMatch l1 || brMatch '【' '】' l1 || brMatch '(' ')' l1 || brMatch '（' '）' l1

/-- `_TAIL_RE.sub("", s)`: remove the longest suffix matching the tail pattern
(the leftmost match of the `$`-anchored pattern), if any. -/
def tailStripOnce (l : List Char) : List Char :=
  match (List.range (l.length + 1)).find? (fun i => tailAltMatch (l.drop i)) with
  | some i => l.take i
  | none => l

/-- The `for _ in range(2)` loop around `_TAIL_RE.sub`: strip a bracketed tail
and re-strip, stopping early on a fixed point, at most two passes. -/
def tailLoop : Nat → List Char → List Char
  | 0, s => s
  | n + 1, s =>
    let ns := pyStrip (tailStripOnce s)
    if ns == s then s else tailLoop n ns

/-- `re.sub(r"w$", "", s).strip()` for a literal word `w`. -/
def dropWordBack (w l : List Char) : List Char :=
  pyStrip (if endsL w l then l.take (l.length - w.length) else l)

/-- `re.sub(r"^w[:：]?\s*", "", s).strip()` for a literal word `w`. -/
def dropMarkerFront (w l : List Char) : List Char :=
  pyStrip
    (if startsL w l then
      let r := l.drop w.length
      let r2 := match r with
        | c :: t => if c == ':' || c == '：' then t else c :: t
        | [] => []
      r2.dropWhile isPySpace
    else l)

/-- `re.sub(r"^w\s*", "", s).strip()` for a literal noise word `w`. -/
def dropNoiseFront (w l : List Char) : List Char :=
  pyStrip (if startsL w l then (l.drop w.length).dropWhile isPySpace else l)

/-- `re.sub(r"\s*w$", "", s).strip()` for a literal noise word `w` (the leading
`\s*` of the pattern is subsumed by the strip). -/
def dropNoiseBack (w l : List Char) : List Char :=
  pyStrip (if endsL w l then l.take (l.length - w.length) else l)

/-- One iteration of the noise-word loop: strip `w` as a prefix, then as a
suffix. -/
def noiseStep (l : List Char) (w : List Char) : List Char :=
  dropNoiseBack w (dropNoiseFront w l)

/-- The full noise-word loop over `_NOISE_WORDS` in list order. -/
def noisePass (l : List Char) : List Char := noiseWords.foldl noiseStep l

/-- The honorific alternatives of `re.sub(r"\s+(さん|ちゃん|くん|氏)$", ...)`. -/
def honorifics : List (List Char) := ["さん".data, "ちゃん".data, "くん".data, "氏".data]

/-- `re.sub(r"\s+(さん|ちゃん|くん|氏)$", "", s).strip()`: the honorific must be
preceded by at least one whitespace character. -/
def dropHonorific (l : List Char) : List Char :=
  match honorifics.find? (fun w => endsL w l) with
  | some w =>
    let l1 := l.take (l.length - w.length)
    match l1.getLast? with
    | some c => if isPySpace c then pyStrip l1 else pyStrip l
    | none => pyStrip l
  | none => pyStrip l

/-- The character set of `s.strip(" -–—|｜:：/／")`. -/
def punctChars : List Char := [' ', '-', '–', '—', '|', '｜', ':', '：', '/', '／']

/-- `s.strip(" -–—|｜:：/／").strip()`. -/
def stripPunct (l : List Char) : List Char :=
  pyStrip (pyStripChars punctChars l)

/-- `clean_dish_title` on character lists, following src/app.py lines 218-255
step by step. -/
def cleanL (raw : List Char) : Option (List Char) :=
  if raw.isEmpty then none
  else
    let s0 := pyStrip (collapseWs raw)
    if s0.isEmpty then none
    else
      let s1 := splitKeepLeft s0
      let s2 := tailLoop 2 s1
      let s3 := dropWordBack "レシピ".data s2
      let s4 := dropMarkerFront "レシピ".data s3
      let s5 := dropWordBack "作り方".data s4
      let s6 := dropMarkerFront "作り方".data s5
      let s7 := noisePass s6
      let s8 := dropHonorific s7
      let s9 := stripPunct s8
      if 2 ≤ s9.length && s9.length ≤ 60 then some s9 else none

/-- `clean_dish_title` (src/app.py). -/
def clean_dish_title (raw : String) : Option String :=
  (cleanL raw.data).map (fun l => String.mk l)

/-! ## A small backtracking matcher

The extractor functions of src/app.py use `re.search`/`re.finditer` with a
handful of concrete patterns built from literals (under `re.IGNORECASE`),
negated character classes, a quote class, `+`/`*` (greedy), `(?::src)?`, one
capturing group, and a lazy `(.*?)` under `re.DOTALL`. The abstract syntax
below covers exactly these constructs and the matcher reproduces Python's
leftmost search with backtracking priority (greedy prefers longer, lazy
prefers shorter, alternation prefers the left branch). -/

inductive RE where
  | eps
  | ch (c : Char)
  | chI (c : Char)
  | cls (neg : Bool) (cs : List Char)
  | anyc
  | seq (a b : RE)
  | alt (a b : RE)
  | starG (a : RE)
  | starL (a : RE)
  | opt (a : RE)
  | grp (a : RE)

/-- Result of a match attempt: the rest of the input after the match together
with the content of the capturing group, if one was traversed. -/
abbrev MRes := List Char × Option (List Char)

/-- Backtracking matcher in continuation-passing style. `cap` carries the
capture recorded so far; the continuation receives the remaining input. Fuel
only bounds the recursion depth; it is chosen generously by the callers so the
value never changes a result. -/
def reM : Nat → RE → List Char → Option (List Char) →
    (List Char → Option (List Char) → Option MRes) → Option MRes
  | 0, _, _, _, _ => none
  | _ + 1, .eps, s, cap, k => k s cap
  | _ + 1, .ch c, s, cap, k =>
    match s with
    | [] => none
    | a :: rest => if a == c then k rest cap else none
  | _ + 1, .chI c, s, cap, k =>
    match s with
    | [] => none
    | a :: rest => if a.toLower == c then k rest cap else none
  | _ + 1, .cls neg cs, s, cap, k =>
    match s with
    | [] => none
    | a :: rest => if cs.contains a != neg then k rest cap else none
  | _ + 1, .anyc, s, cap, k =>
    match s with
    | [] => none
    | _ :: rest => k rest cap
  | f + 1, .seq a b, s, cap, k =>
    reM f a s cap (fun s2 c2 => reM f b s2 c2 k)
  | f + 1, .alt a b, s, cap, k =>
    (reM f a s cap k).orElse (fun _ => reM f b s cap k)
  | f + 1, .starG a, s, cap, k =>
    (reM f a s cap (fun s2 c2 =>
      if s2.length < s.length then reM f (.starG a) s2 c2 k else none)).orElse
      (fun _ => k s cap)
  | f + 1, .starL a, s, cap, k =>
    (k s cap).orElse (fun _ =>
      reM f a s cap (fun s2 c2 =>
        if s2.length < s.length then reM f (.starL a) s2 c2 k else none))
  | f + 1, .opt a, s, cap, k =>
    (reM f a s cap k).orElse (fun _ => k s cap)
  | f + 1, .grp a, s, cap, k =>
    reM f a s cap (fun s2 _ => k s2 (some (s.take (s.length - s2.length))))

/-- Generous recursion-depth bound for `reM` on the fixed patterns of the code
(every pattern has fewer than 80 syntax nodes). -/
def reFuel (s : List Char) : Nat := 80 * (s.length + 2)

/-- `re.search`: try a match at each position from the left; on success return
the input remaining after the match and the capture of group 1. -/
def reSearchL (r : RE) (s : List Char) : Option (List Char × List Char) :=
  match reM (reFuel s) r s none (fun rest cap => some (rest, cap)) with
  | some (rest, cap) => some (rest, cap.getD [])
  | none =>
    match s with
    | [] => none
    | _ :: t => reSearchL r t

/-- `re.finditer`, keeping group 1 of every non-overlapping match. -/
def reFindAll : Nat → RE → List Char → List (List Char)
  | 0, _, _ => []
  | f + 1, r, s =>
    match reSearchL r s with
    | none => []
    | some (rest, cap) =>
      cap :: (if rest.length < s.length then reFindAll f r rest else [])

/-- Group 1 of the first match, if any. -/
def searchCap (r : RE) (h : List Char) : Option (List Char) :=
  (reSearchL r h).map (fun p => p.2)

/-! ## The concrete patterns of src/app.py -/

/-- Sequence a list of pattern pieces. -/
def seqL (l : List RE) : RE := l.foldr RE.seq RE.eps

/-- A literal under `re.IGNORECASE`: letters match either case. -/
def reLit (s : String) : RE :=
  seqL (s.data.map (fun c => if c.isAlpha then RE.chI c.toLower else RE.ch c))

/-- The `["\']` quote class. -/
def reQuote : RE := .cls false ['"', '\'']

/-- `[^>]+`. -/
def reNotGt : RE := .seq (.cls true ['>']) (.starG (.cls true ['>']))

/-- `([^"\']+)`: the captured attribute value. -/
def reContentGrp : RE := .grp (.seq (.cls true ['"', '\'']) (.starG (.cls true ['"', '\''])))

/-- A meta pattern with the key attribute first:
`<meta[^>]+ATTR=["\']KEY["\'][^>]+content=["\']([^"\']+)["\']`. -/
def reMetaKC (attr : String) (key : RE) : RE :=
  seqL [reLit "<meta", reNotGt, reLit attr, reQuote, key, reQuote,
        reNotGt, reLit "content=", reQuote, reContentGrp, reQuote]

/-- A meta pattern with the content attribute first:
`<meta[^>]+content=["\']([^"\']+)["\'][^>]+ATTR=["\']KEY["\']`. -/
def reMetaCK (attr : String) (key : RE) : RE :=
  seqL [reLit "<meta", reNotGt, reLit "content=", reQuote, reContentGrp, reQuote,
        reNotGt, reLit attr, reQuote, key, reQuote]

def reOgTitle1 : RE := reMetaKC "property=" (reLit "og:title")
def reOgTitle2 : RE := reMetaCK "property=" (reLit "og:title")
def reTwTitle1 : RE := reMetaKC "name=" (reLit "twitter:title")
def reTwTitle2 : RE := reMetaCK "name=" (reLit "twitter:title")
def reOgImage1 : RE := reMetaKC "property=" (reLit "og:image")
def reOgImage2 : RE := reMetaCK "property=" (reLit "og:image")

/-- `twitter:image(?::src)?`. -/
def reTwImageKey : RE := .seq (reLit "twitter:image") (.opt (reLit ":src"))

def reTwImage1 : RE := reMetaKC "name=" reTwImageKey
def reTwImage2 : RE := reMetaCK "name=" reTwImageKey

/-- `<title[^>]*>(.*?)</title>` under `re.IGNORECASE | re.DOTALL`. -/
def reTitleTag : RE :=
  seqL [reLit "<title", .starG (.cls true ['>']), .ch '>', .grp (.starL .anyc),
        reLit "</title>"]

/-- `<script[^>]+type=["\']application/ld\+json["\'][^>]*>(.*?)</script>`. -/
def reScript : RE :=
  seqL [reLit "<script", reNotGt, reLit "type=", reQuote,
        reLit "application/ld+json", reQuote, .starG (.cls true ['>']), .ch '>',
        .grp (.starL .anyc), reLit "</script>"]

/-! ## extract_og_or_title (src/app.py lines 293-333) -/

/-- The `<title>` fallback of `extract_og_or_title`: group 1 of the first
`<title>` element, stripped and whitespace-collapsed, if non-empty. -/
def titleFromTag (h : List Char) : Option (List Char) :=
  match searchCap reTitleTag h with
  | some cap =>
    let t := collapseWs (pyStrip cap)
    if t.isEmpty then none else some t
  | none => none

/-- `extract_og_or_title` on character lists: `og:title` in both attribute
orders, else `twitter:title` in both orders; a matched value is returned if
non-blank, otherwise the `<title>` element text is used. -/
def extract_og_or_titleL (h : List Char) : Option (List Char) :=
  let m :=
    match searchCap reOgTitle1 h with
    | some c => some c
    | none =>
      match searchCap reOgTitle2 h with
      | some c => some c
      | none =>
        match searchCap reTwTitle1 h with
        | some c => some c
        | none => searchCap reTwTitle2 h
  match m with
  | some c =>
    let t := pyStrip c
    if t.isEmpty then titleFromTag h else some t
  | none => titleFromTag h

/-- `extract_og_or_title` (src/app.py). -/
def extract_og_or_title (html : String) : Option String :=
  (extract_og_or_titleL html.data).map (fun l => String.mk l)

/-- The meta-tag selection of `get_og_image` (src/app.py lines 163-189):
`og:image` in both attribute orders, else `twitter:image`/`twitter:image:src`
in both orders. -/
def imageMetaL (h : List Char) : Option (List Char) :=
  match searchCap reOgImage1 h with
  | some c => some c
  | none =>
    match searchCap reOgImage2 h with
    | some c => some c
    | none =>
      match searchCap reTwImage1 h with
      | some c => some c
      | none => searchCap reTwImage2 h

/-- `"http://"` / `"https://"` test of `get_og_image`. -/
def startsWithHttp (l : List Char) : Bool :=
  startsL "http://".data l || startsL "https://".data l

/-- The part of `get_og_image` after the HTML has been fetched (src/app.py
lines 163-198). `join` stands for `urllib.parse.urljoin`, which is passed in
as an oracle. -/
def get_og_image_post (join : String → String → String) (page_url : String)
    (html : String) : Option String :=
  match imageMetaL html.data with
  | none => none
  | some c =>
    let img := pyStrip c
    if img.isEmpty then none
    else
      let j := join page_url (String.mk img)
      if startsWithHttp j.data then some j else none

/-! ## JSON values and `json.loads`

`extract_recipe_name_from_jsonld` feeds each script block to `json.loads`.
The parser below implements the JSON grammar accepted by `json.loads` (with
its default strict string handling and its `NaN`/`Infinity` extensions) on
fuel-bounded recursion; lone UTF-16 surrogates in `\u` escapes, which Python
can represent but Lean's `Char` cannot, are rejected. -/

inductive Json where
  | null
  | bool (b : Bool)
  | num (raw : List Char)
  | str (s : List Char)
  | arr (elems : List Json)
  | obj (fields : List (List Char × Json))

/-- JSON structural whitespace. -/
def isJsonWs (c : Char) : Bool :=
  c == ' ' || c == '\t' || c == '\n' || c == '\r'

def skipWs (l : List Char) : List Char := l.dropWhile isJsonWs

/-- Hexadecimal digit value, by code point ranges. -/
def hexVal (c : Char) : Option Nat :=
  let n := c.toNat
  if 48 ≤ n ∧ n ≤ 57 then some (n - 48)
  else if 97 ≤ n ∧ n ≤ 102 then some (n - 87)
  else if 65 ≤ n ∧ n ≤ 70 then some (n - 55)
  else none

/-- Four hex digits. -/
def hex4 : List Char → Option (Nat × List Char)
  | a :: b :: c :: d :: t =>
    match hexVal a, hexVal b, hexVal c, hexVal d with
    | some x, some y, some z, some w => some (((x * 16 + y) * 16 + z) * 16 + w, t)
    | _, _, _, _ => none
  | _ => none

/-- String body after the opening quote: content and rest after the closing
quote. Raw control characters are rejected (strict mode). -/
def pStringRest : Nat → List Char → Option (List Char × List Char)
  | 0, _ => none
  | f + 1, l =>
    match l with
    | [] => none
    | '"' :: t => some ([], t)
    | '\\' :: e :: t =>
      let simple : Char → Option Char := fun x =>
        match x with
        | '"' => some '"'
        | '\\' => some '\\'
        | '/' => some '/'
        | 'b' => some '\x08'
        | 'f' => some '\x0c'
        | 'n' => some '\n'
        | 'r' => some '\r'
        | 't' => some '\t'
        | _ => none
      (match simple e with
       | some c => (pStringRest f t).map (fun p => (c :: p.1, p.2))
       | none =>
         if e == 'u' then
           match hex4 t with
           | none => none
           | some (n, t2) =>
             if 0xd800 ≤ n && n ≤ 0xdbff then
               match t2 with
               | '\\' :: 'u' :: t3 =>
                 match hex4 t3 with
                 | some (m, t4) =>
                   if 0xdc00 ≤ m && m ≤ 0xdfff then
                     let cp := 0x10000 + (n - 0xd800) * 0x400 + (m - 0xdc00)
                     (pStringRest f t4).map (fun p => (Char.ofNat cp :: p.1, p.2))
                   else none
                 | none => none
               | _ => none
             else if 0xdc00 ≤ n && n ≤ 0xdfff then none
             else (pStringRest f t2).map (fun p => (Char.ofNat n :: p.1, p.2))
         else none)
    | c :: t =>
      if c.toNat < 0x20 then none
      else (pStringRest f t).map (fun p => (c :: p.1, p.2))

def isDigit (c : Char) : Bool := '0' ≤ c && c ≤ '9'

/-- JSON number (the raw matched characters are kept). -/
def pNum (l : List Char) : Option (List Char × List Char) :=
  let (sign, l1) :=
    match l with
    | '-' :: t => (['-'], t)
    | _ => ([], l)
  match l1 with
  | [] => none
  | c :: t =>
    if c == '0' then
      let intPart := [c]
      let rest := t
      let (fracPart, rest2) :=
        match rest with
        | '.' :: u =>
          let ds := u.takeWhile isDigit
          if ds.isEmpty then ([], rest) else ('.' :: ds, u.drop ds.length)
        | _ => ([], rest)
      if fracPart.isEmpty && (match rest with | '.' :: _ => true | _ => false) then none
      else
        let (expPart, rest3) :=
          match rest2 with
          | e :: u =>
            if e == 'e' || e == 'E' then
              let (es, u2) :=
                match u with
                | s :: v => if s == '+' || s == '-' then ([s], v) else ([], u)
                | [] => ([], u)
              let ds := u2.takeWhile isDigit
              if ds.isEmpty then ([], rest2) else (e :: (es ++ ds), u2.drop ds.length)
            else ([], rest2)
          | [] => ([], rest2)
        if expPart.isEmpty && (match rest2 with | e :: _ => e == 'e' || e == 'E' | _ => false)
        then none
        else some (sign ++ intPart ++ fracPart ++ expPart, rest3)
    else if isDigit c then
      let ds := (c :: t).takeWhile isDigit
      let rest := (c :: t).drop ds.length
      let (fracPart, rest2) :=
        match rest with
        | '.' :: u =>
          let fs := u.takeWhile isDigit
          if fs.isEmpty then ([], rest) else ('.' :: fs, u.drop fs.length)
        | _ => ([], rest)
      if fracPart.isEmpty && (match rest with | '.' :: _ => true | _ => false) then none
      else
        let (expPart, rest3) :=
          match rest2 with
          | e :: u =>
            if e == 'e' || e == 'E' then
              let (es, u2) :=
                match u with
                | s :: v => if s == '+' || s == '-' then ([s], v) else ([], u)
                | [] => ([], u)
              let es2 := u2.takeWhile isDigit
              if es2.isEmpty then ([], rest2) else (e :: (es ++ es2), u2.drop es2.length)
            else ([], rest2)
          | [] => ([], rest2)
        if expPart.isEmpty && (match rest2 with | e :: _ => e == 'e' || e == 'E' | _ => false)
        then none
        else some (sign ++ ds ++ fracPart ++ expPart, rest3)
    else none

mutual

/-- One JSON value, leading whitespace allowed. -/
def pVal : Nat → List Char → Option (Json × List Char)
  | 0, _ => none
  | f + 1, l =>
    let l := skipWs l
    match l with
    | '{' :: t =>
      let t2 := skipWs t
      (match t2 with
       | '}' :: t3 => some (.obj [], t3)
       | _ => pMembers f t2 [])
    | '[' :: t =>
      let t2 := skipWs t
      (match t2 with
       | ']' :: t3 => some (.arr [], t3)
       | _ => pItems f t2 [])
    | '"' :: t => (pStringRest (t.length + 1) t).map (fun p => (.str p.1, p.2))
    | _ =>
      if startsL "true".data l then some (.bool true, l.drop 4)
      else if startsL "false".data l then some (.bool false, l.drop 5)
      else if startsL "null".data l then some (.null, l.drop 4)
      else if startsL "NaN".data l then some (.num "NaN".data, l.drop 3)
      else if startsL "Infinity".data l then some (.num "Infinity".data, l.drop 8)
      else if startsL "-Infinity".data l then some (.num "-Infinity".data, l.drop 9)
      else (pNum l).map (fun p => (.num p.1, p.2))

/-- Object members, starting at a key. -/
def pMembers : Nat → List Char → List (List Char × Json) →
    Option (Json × List Char)
  | 0, _, _ => none
  | f + 1, l, acc =>
    match l with
    | '"' :: t =>
      match pStringRest (t.length + 1) t with
      | none => none
      | some (key, r1) =>
        match skipWs r1 with
        | ':' :: r2 =>
          (match pVal f r2 with
           | none => none
           | some (v, r3) =>
             match skipWs r3 with
             | ',' :: r4 => pMembers f (skipWs r4) (acc ++ [(key, v)])
             | '}' :: r4 => some (.obj (acc ++ [(key, v)]), r4)
             | _ => none)
        | _ => none
    | _ => none

/-- Array items, starting at a value. -/
def pItems : Nat → List Char → List Json → Option (Json × List Char)
  | 0, _, _ => none
  | f + 1, l, acc =>
    match pVal f l with
    | none => none
    | some (v, r1) =>
      match skipWs r1 with
      | ',' :: r2 => pItems f r2 (acc ++ [v])
      | ']' :: r2 => some (.arr (acc ++ [v]), r2)
      | _ => none

end

/-- `json.loads`: a single value with only whitespace around it. -/
def jsonLoads (l : List Char) : Option Json :=
  match pVal (3 * l.length + 16) l with
  | some (j, rest) => if (skipWs rest).isEmpty then some j else none
  | none => none

/-! ## extract_recipe_name_from_jsonld (src/app.py lines 258-290) -/

/-- Python `dict.get` after `json.loads`: duplicate keys keep the last value. -/
def jget (fields : List (List Char × Json)) (k : List Char) : Option Json :=
  (fields.reverse.find? (fun p => p.1 == k)).map (fun p => p.2)

def isObj : Json → Bool
  | .obj _ => true
  | _ => false

/-- The candidate objects contributed by one parsed block: the object itself
plus the object members of a list-valued `@graph`, or the object members of a
top-level list. -/
def blockCandidates : Json → List Json
  | .obj o =>
    .obj o ::
      (match jget o "@graph".data with
       | some (.arr g) => g.filter isObj
       | _ => [])
  | .arr l => l.filter isObj
  | _ => []

/-- `@type` contains the literal string `"Recipe"` (the field is a string or a
list; a missing or non-list field is wrapped as a singleton). -/
def typeHasRecipe (o : List (List Char × Json)) : Bool :=
  match jget o "@type".data with
  | some (.arr ts) =>
    ts.any (fun x =>
      match x with
      | .str s => s == "Recipe".data
      | _ => false)
  | some (.str s) => s == "Recipe".data
  | _ => false

/-- The name a single candidate yields: a Recipe-typed object whose `name` is
a string with non-blank content gives that name, stripped. -/
def recipeNameOf : Json → Option (List Char)
  | .obj o =>
    if typeHasRecipe o then
      match jget o "name".data with
      | some (.str n) =>
        let t := pyStrip n
        if t.isEmpty then none else some t
      | _ => none
    else none
  | _ => none

/-- All `<script type="application/ld+json">` block contents in document
order. -/
def scriptBlocks (h : List Char) : List (List Char) :=
  reFindAll (h.length + 1) reScript h

/-- What one script block contributes: skip blank or malformed blocks, then
take the first candidate with a usable Recipe name. -/
def blockName (b : List Char) : Option (List Char) :=
  let blob := pyStrip b
  if blob.isEmpty then none
  else
    match jsonLoads blob with
    | none => none
    | some j => (blockCandidates j).findSome? recipeNameOf

/-- `extract_recipe_name_from_jsonld` on character lists. -/
def extract_recipe_name_from_jsonldL (h : List Char) : Option (List Char) :=
  (scriptBlocks h).findSome? blockName

/-- `extract_recipe_name_from_jsonld` (src/app.py). -/
def extract_recipe_name_from_jsonld (html : String) : Option String :=
  (extract_recipe_name_from_jsonldL html.data).map (fun l => String.mk l)

/-! ## get_og_title, post-fetch part (src/app.py lines 362-378) -/

/-- Steps 1 and 2 of `get_og_title`: JSON-LD first, meta tags as fallback. -/
def rawTitleOf (h : List Char) : Option (List Char) :=
  match extract_recipe_name_from_jsonldL h with
  | some t => some t
  | none => extract_og_or_titleL h

/-- The processing `get_og_title` applies to fetched HTML: extract, clean, and
fall back to the raw title when its trimmed length is within `[2, 80]`. -/
def get_og_title_post (html : String) : Option String :=
  match cleanL ((rawTitleOf html.data).getD []) with
  | some c => some (String.mk c)
  | none =>
    if 2 ≤ (pyStrip ((rawTitleOf html.data).getD [])).length ∧
        (pyStrip ((rawTitleOf html.data).getD [])).length ≤ 80 then
      some (String.mk (pyStrip ((rawTitleOf html.data).getD [])))
    else none

/-! ## Categories (src/app.py lines 43-65, 101-105, 387-428) -/

/-- The `key` fields of `CATEGORIES`. -/
def CATEGORY_KEYS : List String :=
  ["ごはん・丼", "パスタ", "麺", "パン", "お肉", "お魚", "卵・豆", "おかず",
   "サラダ", "スープ", "朝ごはん", "お弁当", "作り置き", "おつまみ",
   "スイーツ", "おやつ", "鍋", "ドリンク", "その他"]

def DEFAULT_CATEGORY : String := "おかず"

/-- `normalize_spaces`: full-width spaces become ASCII spaces, ends trimmed. -/
def normalize_spaces (s : String) : String :=
  String.mk (pyStrip (s.data.map (fun c => if c == '　' then ' ' else c)))

/-- `normalize_category` (src/app.py). -/
def normalize_category (cat : String) : String :=
  let c := normalize_spaces cat
  if CATEGORY_KEYS.contains c then c else "その他"

/-- `any(k in t for k in [...])`. -/
def kwAny (ks : List String) (t : List Char) : Bool :=
  ks.any (fun k => containsL k.data t)

/-- `guess_category_from_text` (src/app.py), translated branch by branch. -/
def guess_category_from_text (text : String) : String :=
  let t := pyLower text.data
  if kwAny ["パスタ", "スパゲ", "カルボナーラ", "ボロネーゼ", "ペペロン"] t then "パスタ"
  else if kwAny ["うどん", "そば", "ラーメン", "そうめん", "焼きそば", "麺"] t then "麺"
  else if kwAny ["丼", "チャーハン", "炊き込み", "おにぎり", "カレー", "リゾット"] t then "ごはん・丼"
  else if kwAny ["パン", "トースト", "サンド", "ホットサンド"] t then "パン"
  else if kwAny ["ケーキ", "プリン", "パフェ", "タルト", "アイス", "ブラウニー", "クレープ"] t then "スイーツ"
  else if kwAny ["クッキー", "ドーナツ", "マフィン", "スコーン", "おやつ"] t then "おやつ"
  else if kwAny ["スープ", "味噌汁", "みそ汁", "ポタージュ", "シチュー"] t then "スープ"
  else if kwAny ["鍋", "しゃぶ", "すき焼", "キムチ鍋", "もつ鍋"] t then "鍋"
  else if containsL "サラダ".data t then "サラダ"
  else if kwAny ["弁当", "お弁当"] t then "お弁当"
  else if kwAny ["作り置き", "つくりおき", "常備菜"] t then "作り置き"
  else if kwAny ["朝", "モーニング", "朝ごはん"] t then "朝ごはん"
  else if kwAny ["つまみ", "おつまみ"] t then "おつまみ"
  else if kwAny ["鶏", "豚", "牛", "ひき肉", "から揚げ", "唐揚げ", "ハンバーグ", "生姜焼"] t then "お肉"
  else if kwAny ["鮭", "さけ", "サーモン", "鯖", "さば", "ぶり", "鯛", "あじ", "いわし"] t then "お魚"
  else if kwAny ["卵", "たまご", "豆腐", "納豆", "大豆", "厚揚げ"] t then "卵・豆"
  else DEFAULT_CATEGORY

/-- The classifier as an explicit ordered rule list (the form §4.6 of the spec
describes); `guess_category_from_text` is proved equal to the first-match scan
of this list. -/
def CLASSIFIER_RULES : List (List String × String) :=
  [(["パスタ", "スパゲ", "カルボナーラ", "ボロネーゼ", "ペペロン"], "パスタ"),
   (["うどん", "そば", "ラーメン", "そうめん", "焼きそば", "麺"], "麺"),
   (["丼", "チャーハン", "炊き込み", "おにぎり", "カレー", "リゾット"], "ごはん・丼"),
   (["パン", "トースト", "サンド", "ホットサンド"], "パン"),
   (["ケーキ", "プリン", "パフェ", "タルト", "アイス", "ブラウニー", "クレープ"], "スイーツ"),
   (["クッキー", "ドーナツ", "マフィン", "スコーン", "おやつ"], "おやつ"),
   (["スープ", "味噌汁", "みそ汁", "ポタージュ", "シチュー"], "スープ"),
   (["鍋", "しゃぶ", "すき焼", "キムチ鍋", "もつ鍋"], "鍋"),
   (["サラダ"], "サラダ"),
   (["弁当", "お弁当"], "お弁当"),
   (["作り置き", "つくりおき", "常備菜"], "作り置き"),
   (["朝", "モーニング", "朝ごはん"], "朝ごはん"),
   (["つまみ", "おつまみ"], "おつまみ"),
   (["鶏", "豚", "牛", "ひき肉", "から揚げ", "唐揚げ", "ハンバーグ", "生姜焼"], "お肉"),
   (["鮭", "さけ", "サーモン", "鯖", "さば", "ぶり", "鯛", "あじ", "いわし"], "お魚"),
   (["卵", "たまご", "豆腐", "納豆", "大豆", "厚揚げ"], "卵・豆")]

/-- First-match evaluation of the rule list, default on no match. -/
def firstRuleMatch (text : String) : String :=
  let t := pyLower text.data
  match CLASSIFIER_RULES.find? (fun r => kwAny r.1 t) with
  | some r => r.2
  | none => DEFAULT_CATEGORY

/-! ## _is_safe_public_http_url (src/app.py lines 111-134)

`urlparse` and `socket.gethostbyname` are external effects; they enter the
embedding as oracles: `parsed` is the outcome of parsing the URL (`none` when
parsing raised) and `resolve` is DNS resolution (`none` when it raised). The
IP classification follows the `ipaddress` module's IPv4 ranges. -/

structure IPv4 where
  a : Nat
  b : Nat
  c : Nat
  d : Nat

def ipVal (ip : IPv4) : Nat := ((ip.a * 256 + ip.b) * 256 + ip.c) * 256 + ip.d

/-- Membership of `ip` in the network `na.nb.nc.nd/plen`. -/
def inNet (ip : IPv4) (na nb nc nd plen : Nat) : Bool :=
  ipVal ip / 2 ^ (32 - plen) == ipVal ⟨na, nb, nc, nd⟩ / 2 ^ (32 - plen)

def ipIsLoopback (ip : IPv4) : Bool := inNet ip 127 0 0 0 8

def ipIsLinkLocal (ip : IPv4) : Bool := inNet ip 169 254 0 0 16

def ipIsMulticast (ip : IPv4) : Bool := inNet ip 224 0 0 0 4

def ipIsReserved (ip : IPv4) : Bool := inNet ip 240 0 0 0 4

/-- The `_private_networks` list of `ipaddress.IPv4Address.is_private`. -/
def ipIsPrivate (ip : IPv4) : Bool :=
  inNet ip 0 0 0 0 8 || inNet ip 10 0 0 0 8 || inNet ip 127 0 0 0 8 ||
  inNet ip 169 254 0 0 16 || inNet ip 172 16 0 0 12 || inNet ip 192 0 0 0 29 ||
  inNet ip 192 0 0 170 31 || inNet ip 192 0 2 0 24 || inNet ip 192 168 0 0 16 ||
  inNet ip 198 18 0 0 15 || inNet ip 198 51 100 0 24 || inNet ip 203 0 113 0 24 ||
  inNet ip 240 0 0 0 4 || inNet ip 255 255 255 255 32

/-- The disjunction rejected by the validator. -/
def ipNonPublic (ip : IPv4) : Bool :=
  ipIsPrivate ip || ipIsLoopback ip || ipIsLinkLocal ip || ipIsReserved ip ||
  ipIsMulticast ip

/-- The fields of `urlparse` the validator reads. -/
structure UrlParts where
  scheme : String
  hostname : Option String

/-- `_is_safe_public_http_url` (src/app.py). -/
def _is_safe_public_http_url (parsed : Option UrlParts)
    (resolve : String → Option IPv4) : Bool :=
  match parsed with
  | none => false
  | some p =>
    if !(p.scheme == "http" || p.scheme == "https") then false
    else
      match p.hostname with
      | none => false
      | some host =>
        if host == "localhost" then false
        else
          match resolve host with
          | none => false
          | some ip => if ipNonPublic ip then false else true

/-! ## The `lru_cache(maxsize=512)` wrappers (src/app.py lines 140, 339)

Modelled from the spec: the cache implementation is `functools.lru_cache`,
which is not part of this repository; the model follows its documented
semantics (bounded capacity, true least-recently-used eviction, hits refresh
recency). Entries are kept most-recent first. -/

def cacheGet {K V : Type} [BEq K] (cap : Nat) (compute : K → V)
    (c : List (K × V)) (k : K) : V × List (K × V) × Bool :=
  match c.find? (fun p => p.1 == k) with
  | some p => (p.2, p :: c.eraseP (fun q => q.1 == k), false)
  | none =>
    let v := compute k
    let c2 := (k, v) :: c
    (v, if cap < c2.length then c2.dropLast else c2, true)

/-- A key is present in a cache state. -/
def cacheHas {K V : Type} [BEq K] (c : List (K × V)) (k : K) : Bool :=
  (c.find? (fun p => p.1 == k)).isSome

def TITLE_CACHE_CAPACITY : Nat := 512

def IMAGE_CACHE_CAPACITY : Nat := 512

/-- The memoized title lookup: `@lru_cache(maxsize=512)` on `get_og_title`,
keyed by the raw URL string. -/
def get_og_title_cached (compute : String → Option String)
    (c : List (String × Option String)) (url : String) :
    Option String × List (String × Option String) × Bool :=
  cacheGet TITLE_CACHE_CAPACITY compute c url

/-- The memoized image lookup: `@lru_cache(maxsize=512)` on `get_og_image`. -/
def get_og_image_cached (compute : String → Option String)
    (c : List (String × Option String)) (url : String) :
    Option String × List (String × Option String) × Bool :=
  cacheGet IMAGE_CACHE_CAPACITY compute c url

/-! ## The full lookups with the network as an oracle -/

/-- Outcome of the guarded `urlopen` call: any exception (network error,
timeout, non-2xx status) is `fail`; otherwise a declared content type and the
decoded, size-capped body. -/
inductive FetchOutcome where
  | fail
  | ok (ctype : String) (body : String)

/-- `get_og_title` for one URL, with parsing/DNS/network as oracles. -/
def get_og_title_model (page_url : String) (parsed : Option UrlParts)
    (resolve : String → Option IPv4) (fetch : FetchOutcome) : Option String :=
  if page_url == "" then none
  else if !_is_safe_public_http_url parsed resolve then none
  else
    match fetch with
    | .fail => none
    | .ok ctype body =>
      if containsL "text/html".data (pyLower ctype.data) then get_og_title_post body
      else none

/-- `get_og_image` for one URL, with parsing/DNS/network/urljoin as oracles. -/
def get_og_image_model (join : String → String → String) (page_url : String)
    (parsed : Option UrlParts) (resolve : String → Option IPv4)
    (fetch : FetchOutcome) : Option String :=
  if page_url == "" then none
  else
    let u := String.mk (pyStrip page_url.data)
    if !_is_safe_public_http_url parsed resolve then none
    else
      match fetch with
      | .fail => none
      | .ok ctype body =>
        if containsL "text/html".data (pyLower ctype.data) then
          get_og_image_post join u body
        else none

/-! ## Specification-side reformulations

These definitions restate parts of the pipeline in the shape the spec uses
(explicit priority levels, flattened candidate lists, explicit rule lists).
The refinement theorems below compare them with the embedded code. -/

/-- The `og:title` level: both attribute orders. -/
def ogTitleVal (h : List Char) : Option (List Char) :=
  match searchCap reOgTitle1 h with
  | some c => some c
  | none => searchCap reOgTitle2 h

/-- The `twitter:title` level: both attribute orders. -/
def twTitleVal (h : List Char) : Option (List Char) :=
  match searchCap reTwTitle1 h with
  | some c => some c
  | none => searchCap reTwTitle2 h

/-- The `og:image` level: both attribute orders. -/
def ogImageVal (h : List Char) : Option (List Char) :=
  match searchCap reOgImage1 h with
  | some c => some c
  | none => searchCap reOgImage2 h

/-- The `twitter:image`/`twitter:image:src` level: both attribute orders. -/
def twImageVal (h : List Char) : Option (List Char) :=
  match searchCap reTwImage1 h with
  | some c => some c
  | none => searchCap reTwImage2 h

/-- The title fallback chain by explicit levels: the `twitter:title` level is
consulted only when the `og:title` level produced no match at all, and a
matched level whose content is blank falls through directly to the `<title>`
element. -/
def titleCascadeSpec (h : List Char) : Option (List Char) :=
  match ogTitleVal h with
  | some c =>
    let t := pyStrip c
    if t.isEmpty then titleFromTag h else some t
  | none =>
    match twTitleVal h with
    | some c =>
      let t := pyStrip c
      if t.isEmpty then titleFromTag h else some t
    | none => titleFromTag h

/-- The image fallback chain by explicit levels. -/
def imageCascadeSpec (h : List Char) : Option (List Char) :=
  match ogImageVal h with
  | some c => some c
  | none => twImageVal h

/-- The candidates one script block contributes (empty for blank or malformed
blocks). -/
def blockCandList (b : List Char) : List Json :=
  let blob := pyStrip b
  if blob.isEmpty then []
  else
    match jsonLoads blob with
    | none => []
    | some j => blockCandidates j

/-- The JSON-LD scan in the spec's formulation: flatten all candidates in
document order (script-block order, then list/`@graph` order within a block)
and take the first with a usable Recipe name. -/
def jsonldSpecScan (h : List Char) : Option (List Char) :=
  ((scriptBlocks h).flatMap blockCandList).findSome? recipeNameOf

/-! ## Concrete inputs used by the claim theorems -/

/-- A 70-character dish title: every normalizer step leaves it unchanged, so
`clean_dish_title` rejects it on length and the raw-title fallback applies. -/
def title70 : String := String.mk (List.replicate 70 'あ')

/-- HTML whose only title signal is the 70-character `<title>` element. -/
def html70 : String := "<title>" ++ title70 ++ "</title>"

/-- The spec's fallback-chain fixture (§8). -/
def htmlCookpad : String := "<title>カルボナーラの作り方 - クックパッド</title>"

/-- The spec's extraction-precedence fixture (§8), with a malformed leading
JSON-LD block to exercise malformed-block skipping. -/
def htmlPrecedence : String :=
  "<script type=\"application/ld+json\">\x7boops</script>" ++
  "<script type=\"application/ld+json\">\x7b\"@type\": \"Recipe\", \"name\": \"鶏の唐揚げ\"\x7d</script>" ++
  "<meta property=\"og:title\" content=\"から揚げレシピ | Foo Blog\">"

/-- A blank `og:title` followed by a non-blank `twitter:title`. -/
def htmlBlankOg : String :=
  "<meta property=\"og:title\" content=\" \"><meta name=\"twitter:title\" content=\"Bar\">"

/-- One access to a capacity-512 `Nat`-keyed cache, keeping the state. -/
def evStep (st : List (Nat × Nat)) (k : Nat) : List (Nat × Nat) :=
  (cacheGet 512 (fun n => n) st k).2.1

/-- Insert keys `0..511` into an empty capacity-512 cache, touch key `0`
again, then insert the 513th distinct key `512`; report whether keys `0` and
`1` survive. -/
def evictionScenario : Bool × Bool :=
  let st1 := (List.range 512).foldl evStep []
  let st2 := evStep st1 0
  let st3 := evStep st2 512
  (cacheHas st3 0, cacheHas st3 1)

/-- The cache state whose keys are `off, off + 1, ..., off + n - 1`, most
recent first, each key cached with itself as value. -/
def diagEntries (off n : Nat) : List (Nat × Nat) :=
  ((List.range n).map (fun k => (k + off, k + off))).reverse

/-! # Theorems -/

/-! ## Generic list helpers -/

theorem dropWhile_eq_self_of {p : Char → Bool} {l : List Char}
    (h : ∀ c ∈ l, p c = false) : l.dropWhile p = l := by
  cases l with
  | nil => rfl
  | cons a t =>
    rw [List.dropWhile_cons, h a (List.mem_cons_self a t)]
    simp

theorem dropEndWhile_eq_self_of {p : Char → Bool} {l : List Char}
    (h : ∀ c ∈ l, p c = false) : dropEndWhile p l = l := by
  unfold dropEndWhile
  rw [dropWhile_eq_self_of (fun c hc => h c (List.mem_reverse.mp hc)),
    List.reverse_reverse]

theorem pyStrip_eq_self_of {l : List Char}
    (h : ∀ c ∈ l, isPySpace c = false) : pyStrip l = l := by
  unfold pyStrip
  rw [dropWhile_eq_self_of h, dropEndWhile_eq_self_of h]

theorem takeWhile_eq_self_of {p : Char → Bool} {l : List Char}
    (h : ∀ c ∈ l, p c = true) : l.takeWhile p = l := by
  induction l with
  | nil => rfl
  | cons a t ih =>
    rw [List.takeWhile_cons, h a (List.mem_cons_self a t)]
    simp [ih (fun c hc => h c (List.mem_cons_of_mem a hc))]

theorem collapseWsAux_eq_self_of {l : List Char}
    (h : ∀ c ∈ l, isPySpace c = false) : ∀ b, collapseWsAux b l = l := by
  induction l with
  | nil => intro b; rfl
  | cons a t ih =>
    intro b
    unfold collapseWsAux
    rw [h a (List.mem_cons_self a t)]
    simp [ih (fun c hc => h c (List.mem_cons_of_mem a hc))]

theorem collapseWs_eq_self_of {l : List Char}
    (h : ∀ c ∈ l, isPySpace c = false) : collapseWs l = l :=
  collapseWsAux_eq_self_of h false

theorem foldl_eq_self_of {α β : Type} (f : β → α → β) (init : β) (L : List α)
    (h : ∀ a ∈ L, f init a = init) : L.foldl f init = init := by
  induction L with
  | nil => rfl
  | cons a t ih =>
    rw [List.foldl_cons, h a (List.mem_cons_self a t)]
    exact ih (fun x hx => h x (List.mem_cons_of_mem a hx))

/-! ## Fixed-point lemmas for the normalizer steps -/

theorem splitKeepLeft_eq_self_of {l : List Char}
    (hw : ∀ c ∈ l, isPySpace c = false)
    (hs : ∀ c ∈ l, sepChars.contains c = false) : splitKeepLeft l = l := by
  unfold splitKeepLeft
  rw [takeWhile_eq_self_of (fun c hc => by rw [hs c hc]; rfl), pyStrip_eq_self_of hw]

theorem byMatch_false_of {m : List Char}
    (hw : ∀ c ∈ m, isPySpace c = false) : byMatch m = false := by
  unfold byMatch
  cases h2 : m.drop 2 with
  | nil => simp
  | cons c t =>
    have hc : c ∈ m := List.drop_subset 2 m (h2 ▸ List.mem_cons_self c t)
    simp [hw c hc]

theorem brMatch_false_of {op cl : Char} {m : List Char}
    (hb : ∀ c ∈ m, (c == op) = false) : brMatch op cl m = false := by
  unfold brMatch
  cases m with
  | nil => rfl
  | cons a t => simp [hb a (List.mem_cons_self a t)]

theorem tailAltMatch_false_of {m : List Char}
    (hw : ∀ c ∈ m, isPySpace c = false)
    (hb : ∀ c ∈ m, (['【', '(', '（'].contains c) = false) :
    tailAltMatch m = false := by
  have hop : ∀ op : Char, op ∈ (['【', '(', '（'] : List Char) →
      ∀ c ∈ m, (c == op) = false := by
    intro op hmem c hc
    have := hb c hc
    simp only [List.contains_eq_any_beq, List.any_eq_false] at this
    have h2 := this op hmem
    cases hcop : c == op with
    | false => rfl
    | true => exact absurd hcop h2
  unfold tailAltMatch
  simp only [dropWhile_eq_self_of hw, byMatch_false_of hw,
    brMatch_false_of (hop '【' (by simp)),
    brMatch_false_of (hop '(' (by simp)),
    brMatch_false_of (hop '（' (by simp)), Bool.or_false]

theorem tailStripOnce_eq_self_of {l : List Char}
    (hw : ∀ c ∈ l, isPySpace c = false)
    (hb : ∀ c ∈ l, (['【', '(', '（'].contains c) = false) :
    tailStripOnce l = l := by
  unfold tailStripOnce
  have hnone : (List.range (l.length + 1)).find?
      (fun i => tailAltMatch (l.drop i)) = none := by
    rw [List.find?_eq_none]
    intro i _
    rw [tailAltMatch_false_of (fun c hc => hw c (List.drop_subset i l hc))
      (fun c hc => hb c (List.drop_subset i l hc))]
    simp
  rw [hnone]

theorem tailLoop_eq_self_of {l : List Char}
    (hw : ∀ c ∈ l, isPySpace c = false)
    (hb : ∀ c ∈ l, (['【', '(', '（'].contains c) = false) :
    tailLoop 2 l = l := by
  show (let ns := pyStrip (tailStripOnce l); if ns == l then l else tailLoop 1 ns) = l
  rw [tailStripOnce_eq_self_of hw hb, pyStrip_eq_self_of hw]
  simp

theorem dropWordBack_eq_self_of {w l : List Char}
    (hw : ∀ c ∈ l, isPySpace c = false) (h : endsL w l = false) :
    dropWordBack w l = l := by
  unfold dropWordBack
  rw [h]
  simp [pyStrip_eq_self_of hw]

theorem dropMarkerFront_eq_self_of {w l : List Char}
    (hw : ∀ c ∈ l, isPySpace c = false) (h : startsL w l = false) :
    dropMarkerFront w l = l := by
  unfold dropMarkerFront
  rw [h]
  simp [pyStrip_eq_self_of hw]

theorem dropNoiseFront_eq_self_of {w l : List Char}
    (hw : ∀ c ∈ l, isPySpace c = false) (h : startsL w l = false) :
    dropNoiseFront w l = l := by
  unfold dropNoiseFront
  rw [h]
  simp [pyStrip_eq_self_of hw]

theorem dropNoiseBack_eq_self_of {w l : List Char}
    (hw : ∀ c ∈ l, isPySpace c = false) (h : endsL w l = false) :
    dropNoiseBack w l = l := by
  unfold dropNoiseBack
  rw [h]
  simp [pyStrip_eq_self_of hw]

theorem noisePass_eq_self_of {l : List Char}
    (hw : ∀ c ∈ l, isPySpace c = false)
    (hn : ∀ w ∈ noiseWords, startsL w l = false ∧ endsL w l = false) :
    noisePass l = l := by
  unfold noisePass
  apply foldl_eq_self_of
  intro w hwmem
  unfold noiseStep
  rw [dropNoiseFront_eq_self_of hw (hn w hwmem).1,
    dropNoiseBack_eq_self_of hw (hn w hwmem).2]

theorem dropHonorific_eq_self_of {l : List Char}
    (hw : ∀ c ∈ l, isPySpace c = false) : dropHonorific l = l := by
  cases hf : honorifics.find? (fun w => endsL w l) with
  | none => simp [dropHonorific, hf, pyStrip_eq_self_of hw]
  | some w =>
    cases hl : (l.take (l.length - w.length)).getLast? with
    | none => simp [dropHonorific, hf, hl, pyStrip_eq_self_of hw]
    | some c =>
      have hcmem : c ∈ l :=
        List.take_subset _ l (List.mem_of_mem_getLast? hl)
      simp [dropHonorific, hf, hl, hw c hcmem, pyStrip_eq_self_of hw]

theorem stripPunct_eq_self_of {l : List Char}
    (hw : ∀ c ∈ l, isPySpace c = false)
    (hs : ∀ c ∈ l, sepChars.contains c = false) : stripPunct l = l := by
  have hp : ∀ c ∈ l, punctChars.contains c = false := by
    intro c hc
    have h1 := hw c hc
    have h2 := hs c hc
    cases hcp : punctChars.contains c with
    | false => rfl
    | true =>
      exfalso
      have hmem : c ∈ punctChars := List.mem_of_elem_eq_true hcp
      fin_cases hmem
      · exact absurd h1 (by decide)
      all_goals exact absurd h2 (by decide)
  unfold stripPunct pyStripChars
  rw [dropWhile_eq_self_of (fun c hc => hp c hc),
    dropEndWhile_eq_self_of (fun c hc => hp c hc), pyStrip_eq_self_of hw]

/-! ## C2: idempotence of the normalizer -/

/-- C2 counterexample: `clean_dish_title` is not idempotent. On
`"豚汁レシピ料理"` one pass strips only the suffix `料理` (exposing `レシピ`,
whose noise-word rule has already run), so a second pass strips further:
`clean(x) = "豚汁レシピ"` but `clean(clean(x)) = "豚汁"`. -/
theorem clean_not_idempotent :
    clean_dish_title "豚汁レシピ料理" = some "豚汁レシピ" ∧
    clean_dish_title "豚汁レシピ" = some "豚汁" ∧
    ("豚汁レシピ" : String) ≠ "豚汁" :=
  ⟨by decide, by decide, by decide⟩

/-- C2 (amended): `clean_dish_title` is a no-op exactly on already-clean
titles in the spec's sense — length 2 to 60, no whitespace, no separator or
opening-bracket characters, and no noise word as a prefix or suffix; every
such title is a fixed point (`clean(t) = some t`). -/
theorem clean_fixed_point (t : String)
    (h1 : 2 ≤ t.length) (h2 : t.length ≤ 60)
    (hw : ∀ c ∈ t.data, isPySpace c = false)
    (hs : ∀ c ∈ t.data, sepChars.contains c = false)
    (hb : ∀ c ∈ t.data, (['【', '(', '（'] : List Char).contains c = false)
    (hn : ∀ w ∈ noiseWords, startsL w t.data = false ∧ endsL w t.data = false) :
    clean_dish_title t = some t := by
  obtain ⟨l⟩ := t
  simp only [String.length] at h1 h2
  simp only at hw hs hb hn
  have hres : "レシピ".data ∈ noiseWords := by simp [noiseWords]
  have htsu : "作り方".data ∈ noiseWords := by simp [noiseWords]
  have hne : l.isEmpty = false := by
    cases l with
    | nil => simp at h1
    | cons a t => rfl
  have hcol : pyStrip (collapseWs l) = l := by
    rw [collapseWs_eq_self_of hw, pyStrip_eq_self_of hw]
  simp only [clean_dish_title, cleanL, hne, hcol,
    splitKeepLeft_eq_self_of hw hs, tailLoop_eq_self_of hw hb,
    dropWordBack_eq_self_of hw (hn _ hres).2,
    dropMarkerFront_eq_self_of hw (hn _ hres).1,
    dropWordBack_eq_self_of hw (hn _ htsu).2,
    dropMarkerFront_eq_self_of hw (hn _ htsu).1,
    noisePass_eq_self_of hw hn, dropHonorific_eq_self_of hw,
    stripPunct_eq_self_of hw hs]
  simp [h1, h2]

/-- Witness for the amended C2 theorem at the already-clean title
`"カルボナーラ"`. -/
theorem clean_fixed_point_witness :
    clean_dish_title "カルボナーラ" = some "カルボナーラ" :=
  clean_fixed_point "カルボナーラ" (by decide) (by decide) (by decide)
    (by decide) (by decide) (by decide)

/-! ## C1: length bounds of the title pipeline -/

theorem cleanL_length_bounds {raw s : List Char} (h : cleanL raw = some s) :
    2 ≤ s.length ∧ s.length ≤ 60 := by
  simp only [cleanL] at h
  split at h
  · exact absurd h (by simp)
  · split at h
    · exact absurd h (by simp)
    · split at h
      · rename_i hcond
        rw [Option.some_inj] at h
        subst h
        simpa using hcond
      · exact absurd h (by simp)

/-- C1 counterexample: `get_og_title_post` can return a 70-character title via
the raw-title fallback, exceeding the claimed 60-character invariant. -/
theorem title_pipeline_over_sixty :
    get_og_title_post html70 = some title70 ∧ 60 < title70.length :=
  ⟨by decide, by decide⟩

/-- C1 (amended): whenever the title pipeline returns a title, its length is
between 2 and 80 characters inclusive (the normalizer guarantees 2 to 60; the
raw-title fallback widens the upper bound to 80). -/
theorem title_pipeline_length (html : String) (t : String)
    (h : get_og_title_post html = some t) : 2 ≤ t.length ∧ t.length ≤ 80 := by
  unfold get_og_title_post at h
  cases hc : cleanL ((rawTitleOf html.data).getD []) with
  | some c =>
    rw [hc] at h
    simp only [Option.some_inj] at h
    subst h
    have hb := cleanL_length_bounds hc
    show 2 ≤ c.length ∧ c.length ≤ 80
    omega
  | none =>
    rw [hc] at h
    by_cases hcond : 2 ≤ (pyStrip ((rawTitleOf html.data).getD [])).length ∧
        (pyStrip ((rawTitleOf html.data).getD [])).length ≤ 80
    · rw [if_pos hcond, Option.some_inj] at h
      subst h
      exact hcond
    · rw [if_neg hcond] at h
      exact absurd h (by simp)

/-- Witness for the amended C1 theorem: the 70-character result of `html70`
satisfies the widened bounds. -/
theorem title_pipeline_length_witness :
    2 ≤ title70.length ∧ title70.length ≤ 80 :=
  title_pipeline_length html70 title70 (by decide)

/-! ## C3: the fallback-chain fixture -/

/-- C3 counterexample: on HTML whose only signal is
`<title>カルボナーラの作り方 - クックパッド</title>`, normalization yields
`"カルボナーラの"` — the code strips the suffix `作り方` but nothing removes
the particle `の`, so the claimed result `"カルボナーラ"` is not produced. -/
theorem fallback_chain_counterexample :
    extract_og_or_title htmlCookpad = some "カルボナーラの作り方 - クックパッド" ∧
    clean_dish_title "カルボナーラの作り方 - クックパッド" = some "カルボナーラの" ∧
    ("カルボナーラの" : String) ≠ "カルボナーラ" :=
  ⟨by decide, by decide, by decide⟩

/-- C3 (amended): extraction followed by normalization on the fixture yields
exactly `"カルボナーラの"`. -/
theorem fallback_chain_result :
    extract_og_or_title htmlCookpad = some "カルボナーラの作り方 - クックパッド" ∧
    get_og_title_post htmlCookpad = some "カルボナーラの" :=
  ⟨by decide, by decide⟩

/-! ## C4: the URL safety validator -/

/-- C4: the validator rejects non-http(s) schemes, missing hostnames, the
literal hostname `localhost`, resolution failures, and hosts resolving to
private, loopback, link-local, reserved or multicast addresses; any parse
failure is rejected (fail closed); an http(s) URL with a hostname that
resolves to a public address is accepted. -/
theorem safe_url_validator_spec :
    (∀ resolve, _is_safe_public_http_url none resolve = false) ∧
    (∀ p resolve, p.scheme ≠ "http" → p.scheme ≠ "https" →
      _is_safe_public_http_url (some p) resolve = false) ∧
    (∀ s resolve, _is_safe_public_http_url (some ⟨s, none⟩) resolve = false) ∧
    (∀ s resolve,
      _is_safe_public_http_url (some ⟨s, some "localhost"⟩) resolve = false) ∧
    (∀ s h resolve, resolve h = none →
      _is_safe_public_http_url (some ⟨s, some h⟩) resolve = false) ∧
    (∀ s h ip resolve, resolve h = some ip → ipNonPublic ip = true →
      _is_safe_public_http_url (some ⟨s, some h⟩) resolve = false) ∧
    (∀ s h ip resolve, (s = "http" ∨ s = "https") → h ≠ "localhost" →
      resolve h = some ip → ipNonPublic ip = false →
      _is_safe_public_http_url (some ⟨s, some h⟩) resolve = true) := by
  refine ⟨?_, ?_, ?_, ?_, ?_, ?_, ?_⟩
  · intro resolve
    rfl
  · intro p resolve h1 h2
    have hb : (p.scheme == "http" || p.scheme == "https") = false := by
      simp [h1, h2]
    simp [_is_safe_public_http_url, hb]
  · intro s resolve
    simp [_is_safe_public_http_url]
  · intro s resolve
    simp [_is_safe_public_http_url]
  · intro s h resolve hres
    simp [_is_safe_public_http_url, hres]
  · intro s h ip resolve hres hip
    simp [_is_safe_public_http_url, hres, hip]
  · intro s h ip resolve hs hloc hres hip
    have h1 : (s == "http" || s == "https") = true := by
      rcases hs with h | h <;> simp [h]
    have h2 : (h == "localhost") = false := by
      simp [hloc]
    simp [_is_safe_public_http_url, h1, h2, hres, hip]

/-- Witness for C4: `https://example.com` resolving to the public address
`93.184.216.34` is accepted. -/
theorem safe_url_validator_witness :
    _is_safe_public_http_url (some ⟨"https", some "example.com"⟩)
      (fun _ => some ⟨93, 184, 216, 34⟩) = true :=
  safe_url_validator_spec.2.2.2.2.2.2 "https" "example.com" ⟨93, 184, 216, 34⟩
    (fun _ => some ⟨93, 184, 216, 34⟩) (Or.inr rfl) (by decide) rfl (by decide)

/-! ## C5: JSON-LD extraction order and precedence -/

theorem findSome?_append {α β : Type} (l1 l2 : List α) (f : α → Option β) :
    (l1 ++ l2).findSome? f =
      match l1.findSome? f with
      | some b => some b
      | none => l2.findSome? f := by
  induction l1 with
  | nil => simp [List.findSome?]
  | cons a t ih =>
    rw [List.cons_append, List.findSome?_cons, List.findSome?_cons]
    cases f a with
    | some b => rfl
    | none => exact ih

theorem findSome?_flatMap {α β γ : Type} (L : List α) (g : α → List β)
    (f : β → Option γ) :
    (L.flatMap g).findSome? f =
      L.findSome? (fun a => (g a).findSome? f) := by
  induction L with
  | nil => rfl
  | cons a t ih =>
    rw [List.flatMap_cons, findSome?_append, List.findSome?_cons]
    cases (g a).findSome? f with
    | some b => rfl
    | none => exact ih

theorem blockName_eq_candList (b : List Char) :
    blockName b = (blockCandList b).findSome? recipeNameOf := by
  unfold blockName blockCandList
  by_cases he : (pyStrip b).isEmpty
  · simp [he, List.findSome?]
  · simp only [he, Bool.false_eq_true, if_false]
    cases jsonLoads (pyStrip b) with
    | none => simp [List.findSome?]
    | some j => rfl

/-- C5: the JSON-LD extractor returns the stripped `name` of the first
candidate — in document order of script blocks, then list/`@graph` order,
skipping malformed blocks — whose `@type` contains `"Recipe"` and whose name
is non-blank; and on the precedence fixture (which also carries a malformed
block and an `og:title`) the structured-data name `"鶏の唐揚げ"` wins. -/
theorem jsonld_first_recipe_wins :
    (∀ html : String, extract_recipe_name_from_jsonld html =
      (((scriptBlocks html.data).flatMap blockCandList).findSome?
        recipeNameOf).map (fun l => String.mk l)) ∧
    extract_recipe_name_from_jsonld htmlPrecedence = some "鶏の唐揚げ" ∧
    extract_og_or_title htmlPrecedence = some "から揚げレシピ | Foo Blog" ∧
    get_og_title_post htmlPrecedence = some "鶏の唐揚げ" := by
  refine ⟨?_, by decide, by decide, by decide⟩
  intro html
  unfold extract_recipe_name_from_jsonld extract_recipe_name_from_jsonldL
  rw [findSome?_flatMap]
  have hfun : blockName = fun b => (blockCandList b).findSome? recipeNameOf :=
    funext blockName_eq_candList
  rw [hfun]

/-! ## C6: meta-tag priority -/

/-- C6 counterexample: a matched `og:title` whose content is blank suppresses
the `twitter:title` level entirely, so the non-empty `twitter:title` match
`"Bar"` does not win — the extractor returns nothing. -/
theorem meta_priority_counterexample :
    extract_og_or_title htmlBlankOg = none ∧
    ogTitleVal htmlBlankOg.data = some [' '] ∧
    twTitleVal htmlBlankOg.data = some "Bar".data :=
  ⟨by decide, by decide, by decide⟩

/-- C6 (amended): the extractors consult the levels in order `og`, then
`twitter` (only when the `og` level matched nothing), both attribute orders,
case-insensitively; for the title a matched level with blank content falls
through to the `<title>` element (never to `twitter:title`), and for the
image the `twitter` level is likewise skipped whenever `og:image` matched. -/
theorem meta_cascade_characterization :
    (∀ h : List Char, extract_og_or_titleL h = titleCascadeSpec h) ∧
    (∀ h : List Char, imageMetaL h = imageCascadeSpec h) := by
  constructor
  · intro h
    unfold extract_og_or_titleL titleCascadeSpec ogTitleVal twTitleVal
    cases h1 : searchCap reOgTitle1 h with
    | some c => rfl
    | none =>
      cases h2 : searchCap reOgTitle2 h with
      | some c => rfl
      | none =>
        cases h3 : searchCap reTwTitle1 h with
        | some c => rfl
        | none =>
          cases h4 : searchCap reTwTitle2 h with
          | some c => rfl
          | none => rfl
  · intro h
    unfold imageMetaL imageCascadeSpec ogImageVal twImageVal
    cases h1 : searchCap reOgImage1 h with
    | some c => rfl
    | none =>
      cases h2 : searchCap reOgImage2 h with
      | some c => rfl
      | none => rfl

/-! ## C7: the category invariant and rule order -/

/-- C7 counterexample: `normalize_category` first normalizes spaces, so the
string `" パスタ "` — not a member of the category set — maps to `"パスタ"`,
not to the designated other key `"その他"`. -/
theorem normalize_category_counterexample :
    normalize_category " パスタ " = "パスタ" ∧
    (" パスタ " : String) ∉ CATEGORY_KEYS ∧
    ("パスタ" : String) ≠ "その他" :=
  ⟨by decide, by decide, by decide⟩

set_option maxHeartbeats 1600000 in
theorem guess_eq_firstRuleMatch (text : String) :
    guess_category_from_text text = firstRuleMatch text := by
  have gsal : kwAny ["サラダ"] (pyLower text.data) =
      containsL "サラダ".data (pyLower text.data) := by
    simp [kwAny]
  simp only [guess_category_from_text, firstRuleMatch, CLASSIFIER_RULES]
  by_cases g1 : kwAny ["パスタ", "スパゲ", "カルボナーラ", "ボロネーゼ", "ペペロン"] (pyLower text.data)
  · simp [List.find?, g1]
  by_cases g2 : kwAny ["うどん", "そば", "ラーメン", "そうめん", "焼きそば", "麺"] (pyLower text.data)
  · simp [List.find?, g1, g2]
  by_cases g3 : kwAny ["丼", "チャーハン", "炊き込み", "おにぎり", "カレー", "リゾット"] (pyLower text.data)
  · simp [List.find?, g1, g2, g3]
  by_cases g4 : kwAny ["パン", "トースト", "サンド", "ホットサンド"] (pyLower text.data)
  · simp [List.find?, g1, g2, g3, g4]
  by_cases g5 : kwAny ["ケーキ", "プリン", "パフェ", "タルト", "アイス", "ブラウニー", "クレープ"] (pyLower text.data)
  · simp [List.find?, g1, g2, g3, g4, g5]
  by_cases g6 : kwAny ["クッキー", "ドーナツ", "マフィン", "スコーン", "おやつ"] (pyLower text.data)
  · simp [List.find?, g1, g2, g3, g4, g5, g6]
  by_cases g7 : kwAny ["スープ", "味噌汁", "みそ汁", "ポタージュ", "シチュー"] (pyLower text.data)
  · simp [List.find?, g1, g2, g3, g4, g5, g6, g7]
  by_cases g8 : kwAny ["鍋", "しゃぶ", "すき焼", "キムチ鍋", "もつ鍋"] (pyLower text.data)
  · simp [List.find?, g1, g2, g3, g4, g5, g6, g7, g8]
  by_cases g9 : containsL "サラダ".data (pyLower text.data)
  · simp [List.find?, g1, g2, g3, g4, g5, g6, g7, g8, gsal, g9]
  by_cases g10 : kwAny ["弁当", "お弁当"] (pyLower text.data)
  · simp [List.find?, g1, g2, g3, g4, g5, g6, g7, g8, gsal, g9, g10]
  by_cases g11 : kwAny ["作り置き", "つくりおき", "常備菜"] (pyLower text.data)
  · simp [List.find?, g1, g2, g3, g4, g5, g6, g7, g8, gsal, g9, g10, g11]
  by_cases g12 : kwAny ["朝", "モーニング", "朝ごはん"] (pyLower text.data)
  · simp [List.find?, g1, g2, g3, g4, g5, g6, g7, g8, gsal, g9, g10, g11, g12]
  by_cases g13 : kwAny ["つまみ", "おつまみ"] (pyLower text.data)
  · simp [List.find?, g1, g2, g3, g4, g5, g6, g7, g8, gsal, g9, g10, g11, g12,
      g13]
  by_cases g14 : kwAny ["鶏", "豚", "牛", "ひき肉", "から揚げ", "唐揚げ", "ハンバーグ", "生姜焼"] (pyLower text.data)
  · simp [List.find?, g1, g2, g3, g4, g5, g6, g7, g8, gsal, g9, g10, g11, g12,
      g13, g14]
  by_cases g15 : kwAny ["鮭", "さけ", "サーモン", "鯖", "さば", "ぶり", "鯛", "あじ", "いわし"] (pyLower text.data)
  · simp [List.find?, g1, g2, g3, g4, g5, g6, g7, g8, gsal, g9, g10, g11, g12,
      g13, g14, g15]
  by_cases g16 : kwAny ["卵", "たまご", "豆腐", "納豆", "大豆", "厚揚げ"] (pyLower text.data)
  · simp [List.find?, g1, g2, g3, g4, g5, g6, g7, g8, gsal, g9, g10, g11, g12,
      g13, g14, g15, g16]
  simp [List.find?, g1, g2, g3, g4, g5, g6, g7, g8, gsal, g9, g10, g11, g12,
    g13, g14, g15, g16]

theorem firstRuleMatch_mem (text : String) :
    firstRuleMatch text ∈ CATEGORY_KEYS := by
  have hall : ∀ x ∈ CLASSIFIER_RULES, x.2 ∈ CATEGORY_KEYS := by decide
  simp only [firstRuleMatch]
  cases hf : CLASSIFIER_RULES.find? (fun r => kwAny r.1 (pyLower text.data)) with
  | none => decide
  | some r => exact hall r (List.mem_of_find?_eq_some hf)

/-- C7 (amended): every category the classifier or the normalizer produces is
a member of the fixed 19-key set; the classifier equals first-match evaluation
of its rule list in declared order with the default on no match; and
`normalize_category` maps any string whose space-normalized form is outside
the set to `"その他"`. -/
theorem classifier_category_invariant :
    (∀ text : String, guess_category_from_text text ∈ CATEGORY_KEYS) ∧
    (∀ text : String, guess_category_from_text text = firstRuleMatch text) ∧
    (∀ cat : String, normalize_category cat ∈ CATEGORY_KEYS) ∧
    (∀ cat : String, normalize_spaces cat ∉ CATEGORY_KEYS →
      normalize_category cat = "その他") := by
  refine ⟨?_, guess_eq_firstRuleMatch, ?_, ?_⟩
  · intro text
    rw [guess_eq_firstRuleMatch]
    exact firstRuleMatch_mem text
  · intro cat
    unfold normalize_category
    by_cases hmem : CATEGORY_KEYS.contains (normalize_spaces cat)
    · simp only [hmem, if_true]
      exact List.mem_of_elem_eq_true hmem
    · simp only [hmem, Bool.false_eq_true, if_false]
      decide
  · intro cat hmem
    have hc : CATEGORY_KEYS.contains (normalize_spaces cat) = false := by
      cases hcc : CATEGORY_KEYS.contains (normalize_spaces cat) with
      | false => rfl
      | true => exact absurd (List.mem_of_elem_eq_true hcc) hmem
    simp only [normalize_category]
    rw [hc]
    simp

/-- Witness for the amended C7 theorem: `"ねこ"` normalizes to no category key
and maps to `"その他"`. -/
theorem classifier_category_invariant_witness :
    normalize_category "ねこ" = "その他" :=
  classifier_category_invariant.2.2.2 "ねこ" (by decide)

/-! ## C8: LRU memoization -/

theorem cacheGet_hit_no_fetch {K V : Type} [BEq K] (cap : Nat)
    (compute : K → V) (c : List (K × V)) (k : K) (h : cacheHas c k = true) :
    (cacheGet cap compute c k).2.2 = false := by
  unfold cacheHas at h
  cases hf : c.find? (fun p => p.1 == k) with
  | none => rw [hf] at h; simp at h
  | some p => simp [cacheGet, hf]

theorem cacheGet_miss_fetch {K V : Type} [BEq K] (cap : Nat)
    (compute : K → V) (c : List (K × V)) (k : K) (h : cacheHas c k = false) :
    (cacheGet cap compute c k).2.2 = true := by
  unfold cacheHas at h
  cases hf : c.find? (fun p => p.1 == k) with
  | some p => rw [hf] at h; simp at h
  | none => simp [cacheGet, hf]

theorem cacheGet_hit_state {K V : Type} [BEq K] (cap : Nat)
    (compute : K → V) (c : List (K × V)) (k : K) (p : K × V)
    (hf : c.find? (fun q => q.1 == k) = some p) :
    (cacheGet cap compute c k).2.1 = p :: c.eraseP (fun q => q.1 == k) := by
  simp [cacheGet, hf]

theorem cacheGet_keep_state {K V : Type} [BEq K] (cap : Nat)
    (compute : K → V) (c : List (K × V)) (k : K)
    (hf : c.find? (fun q => q.1 == k) = none) (hlen : c.length < cap) :
    (cacheGet cap compute c k).2.1 = (k, compute k) :: c := by
  simp only [cacheGet, hf]
  rw [if_neg]
  simp only [List.length_cons]
  omega

theorem cacheGet_evict_state {K V : Type} [BEq K] (cap : Nat)
    (compute : K → V) (c : List (K × V)) (k : K)
    (hf : c.find? (fun q => q.1 == k) = none) (hlen : c.length = cap)
    (hcap : 1 ≤ cap) :
    (cacheGet cap compute c k).2.1 = (k, compute k) :: c.dropLast := by
  simp only [cacheGet, hf]
  rw [if_pos (by simp only [List.length_cons]; omega)]
  cases c with
  | nil => rw [List.length_nil] at hlen; omega
  | cons a t => rfl

theorem cacheHas_cons_self {K V : Type} [BEq K] [LawfulBEq K] (k : K) (v : V)
    (rest : List (K × V)) : cacheHas ((k, v) :: rest) k = true := by
  simp [cacheHas, List.find?_cons]

theorem cacheGet_present_after {K V : Type} [BEq K] [LawfulBEq K] (cap : Nat)
    (compute : K → V) (c : List (K × V)) (k : K) (hcap : 1 ≤ cap) :
    cacheHas (cacheGet cap compute c k).2.1 k = true := by
  cases hf : c.find? (fun q => q.1 == k) with
  | some p =>
    rw [cacheGet_hit_state cap compute c k p hf]
    have hp := @List.find?_some (K × V) (fun q => q.1 == k) p c hf
    simp only at hp
    simp [cacheHas, List.find?_cons, hp]
  | none =>
    simp only [cacheGet, hf]
    cases c with
    | nil =>
      rw [if_neg (by simp only [List.length_cons, List.length_nil]; omega)]
      exact cacheHas_cons_self k (compute k) []
    | cons a t =>
      by_cases hl : cap < t.length + 1 + 1
      · rw [if_pos (by simp only [List.length_cons]; omega)]
        exact cacheHas_cons_self k (compute k) ((a :: t).dropLast)
      · rw [if_neg (by simp only [List.length_cons]; omega)]
        exact cacheHas_cons_self k (compute k) (a :: t)

theorem cacheGet_double {K V : Type} [BEq K] [LawfulBEq K] (cap : Nat)
    (compute : K → V) (c : List (K × V)) (k : K) (hcap : 1 ≤ cap) :
    (cacheGet cap compute c k).2.2.toNat +
      (cacheGet cap compute (cacheGet cap compute c k).2.1 k).2.2.toNat =
      if cacheHas c k = true then 0 else 1 := by
  have h2 := cacheGet_hit_no_fetch cap compute (cacheGet cap compute c k).2.1 k
    (cacheGet_present_after cap compute c k hcap)
  by_cases h : cacheHas c k = true
  · rw [cacheGet_hit_no_fetch cap compute c k h, h2, if_pos h]
    rfl
  · have hb : cacheHas c k = false := by
      cases hcb : cacheHas c k with
      | false => rfl
      | true => exact absurd hcb h
    rw [cacheGet_miss_fetch cap compute c k hb, h2, if_neg h]
    rfl

theorem diagEntries_succ (off n : Nat) :
    diagEntries off (n + 1) = (n + off, n + off) :: diagEntries off n := by
  simp [diagEntries, List.range_succ]

theorem diagEntries_length (off n : Nat) : (diagEntries off n).length = n := by
  simp [diagEntries]

theorem diagEntries_mem {off n : Nat} {p : Nat × Nat}
    (h : p ∈ diagEntries off n) : p.2 = p.1 ∧ off ≤ p.1 ∧ p.1 < off + n := by
  unfold diagEntries at h
  rw [List.mem_reverse] at h
  obtain ⟨k, hk, hkp⟩ := List.mem_map.mp h
  have hkr := List.mem_range.mp hk
  subst hkp
  exact ⟨rfl, by omega, by omega⟩

theorem diagEntries_find?_of_lt (off n j : Nat) (h1 : off ≤ j)
    (h2 : j < off + n) :
    (diagEntries off n).find? (fun q => q.1 == j) = some (j, j) := by
  induction n with
  | zero => omega
  | succ n ih =>
    rw [diagEntries_succ]
    by_cases hj : j = n + off
    · subst hj
      simp [List.find?_cons]
    · have hne : ((n + off : Nat) == j) = false := by
        simp
        omega
      simp only [List.find?_cons, hne]
      exact ih (by omega)

theorem diagEntries_find?_none (off n j : Nat)
    (h : off + n ≤ j ∨ j < off) :
    (diagEntries off n).find? (fun q => q.1 == j) = none := by
  rw [List.find?_eq_none]
  intro p hp
  have hm := diagEntries_mem hp
  simp
  omega

theorem diagEntries_split (off n : Nat) :
    diagEntries off (n + 1) = diagEntries (off + 1) n ++ [(off, off)] := by
  unfold diagEntries
  rw [List.range_succ_eq_map, List.map_cons, List.reverse_cons, List.map_map]
  have hfun : ((fun k : Nat => (k + off, k + off)) ∘ Nat.succ) =
      (fun k : Nat => (k + (off + 1), k + (off + 1))) := by
    funext k
    have hk : Nat.succ k + off = k + (off + 1) := by omega
    simp [Function.comp, hk]
  rw [hfun]
  simp

theorem evFold_eq (n : Nat) (hn : n ≤ 512) :
    (List.range n).foldl evStep [] = diagEntries 0 n := by
  induction n with
  | zero => rfl
  | succ n ih =>
    rw [List.range_succ, List.foldl_append, ih (by omega), List.foldl_cons,
      List.foldl_nil]
    unfold evStep
    rw [cacheGet_keep_state 512 (fun x => x) (diagEntries 0 n) n
      (diagEntries_find?_none 0 n n (by omega))
      (by rw [diagEntries_length]; omega)]
    rw [diagEntries_succ]
    norm_num

theorem st2_eq :
    evStep (diagEntries 0 512) 0 = (0, 0) :: diagEntries 1 511 := by
  unfold evStep
  rw [cacheGet_hit_state 512 (fun x => x) _ 0 (0, 0)
    (diagEntries_find?_of_lt 0 512 0 (Nat.le_refl 0) (by omega))]
  have hsplit := diagEntries_split 0 511
  rw [hsplit, List.eraseP_append_right]
  · simp [List.eraseP_cons]
  · intro b hb
    have hm := diagEntries_mem hb
    simp
    omega

theorem st3_eq :
    evStep ((0, 0) :: diagEntries 1 511) 512 =
      (512, 512) :: (0, 0) :: diagEntries 2 510 := by
  unfold evStep
  have hf : ((0, 0) :: diagEntries 1 511).find? (fun q => q.1 == 512) = none := by
    rw [List.find?_eq_none]
    intro p hp
    rcases List.mem_cons.mp hp with h | h
    · subst h; simp
    · have hm := diagEntries_mem h
      simp
      omega
  have hlen : ((0, 0) :: diagEntries 1 511).length = 512 := by
    simp [diagEntries_length]
  rw [cacheGet_evict_state 512 (fun x => x) _ 512 hf hlen (by omega)]
  have hsplit := diagEntries_split 1 510
  rw [hsplit,
    show (0, 0) :: (diagEntries 2 510 ++ [(1, 1)]) =
      ((0, 0) :: diagEntries 2 510) ++ [(1, 1)] from rfl,
    List.dropLast_concat]

theorem evictionScenario_eq : evictionScenario = (true, false) := by
  have h0 : cacheHas ((512, 512) :: (0, 0) :: diagEntries 2 510) 0 = true := by
    simp [cacheHas, List.find?_cons]
  have h1 : cacheHas ((512, 512) :: (0, 0) :: diagEntries 2 510) 1 = false := by
    simp only [cacheHas]
    rw [List.find?_eq_none.mpr]
    · rfl
    · intro p hp
      rcases List.mem_cons.mp hp with h | h
      · subst h; simp
      rcases List.mem_cons.mp h with h | h
      · subst h; simp
      · have hm := diagEntries_mem h
        simp
        omega
  simp only [evictionScenario]
  rw [evFold_eq 512 (Nat.le_refl 512), st2_eq, st3_eq, h0, h1]

/-- C8: both memoization wrappers have capacity 512; a cached URL is answered
without a fetch; two successive lookups of the same URL fetch exactly once
when the URL was uncached and never otherwise; a hit moves its entry to the
front (refreshing recency); a miss at capacity evicts exactly the
least-recently-used (last) entry; and in the concrete 513-key scenario the
refreshed first-inserted key survives while the stale second key is evicted. -/
theorem lookup_caches_lru :
    TITLE_CACHE_CAPACITY = 512 ∧ IMAGE_CACHE_CAPACITY = 512 ∧
    (∀ compute c url, cacheHas c url = true →
      (get_og_title_cached compute c url).2.2 = false) ∧
    (∀ compute c url,
      (get_og_title_cached compute c url).2.2.toNat +
        (get_og_title_cached compute
          (get_og_title_cached compute c url).2.1 url).2.2.toNat =
        if cacheHas c url = true then 0 else 1) ∧
    (∀ compute c url, cacheHas c url = true →
      (get_og_image_cached compute c url).2.2 = false) ∧
    (∀ compute c url,
      (get_og_image_cached compute c url).2.2.toNat +
        (get_og_image_cached compute
          (get_og_image_cached compute c url).2.1 url).2.2.toNat =
        if cacheHas c url = true then 0 else 1) ∧
    (∀ compute c url p, c.find? (fun q => q.1 == url) = some p →
      (get_og_title_cached compute c url).2.1 =
        p :: c.eraseP (fun q => q.1 == url)) ∧
    (∀ compute c url, c.find? (fun q => q.1 == url) = none →
      c.length = TITLE_CACHE_CAPACITY →
      (get_og_title_cached compute c url).2.1 =
        (url, compute url) :: c.dropLast) ∧
    evictionScenario = (true, false) := by
  refine ⟨rfl, rfl, ?_, ?_, ?_, ?_, ?_, ?_, evictionScenario_eq⟩
  · intro compute c url h
    exact cacheGet_hit_no_fetch TITLE_CACHE_CAPACITY compute c url h
  · intro compute c url
    exact cacheGet_double TITLE_CACHE_CAPACITY compute c url (by decide)
  · intro compute c url h
    exact cacheGet_hit_no_fetch IMAGE_CACHE_CAPACITY compute c url h
  · intro compute c url
    exact cacheGet_double IMAGE_CACHE_CAPACITY compute c url (by decide)
  · intro compute c url p hf
    exact cacheGet_hit_state TITLE_CACHE_CAPACITY compute c url p hf
  · intro compute c url hf hlen
    exact cacheGet_evict_state TITLE_CACHE_CAPACITY compute c url hf hlen
      (by decide)

/-- Witness for C8: a cache already holding the URL answers without a fetch. -/
theorem lookup_caches_lru_witness :
    (get_og_title_cached (fun _ => none) [("u", some "t")] "u").2.2 = false :=
  lookup_caches_lru.2.2.1 (fun _ => none) [("u", some "t")] "u" (by decide)

/-! ## C9: fail-soft behavior of the lookups -/

theorem get_og_title_post_none {body : String}
    (hr : rawTitleOf body.data = none) : get_og_title_post body = none := by
  unfold get_og_title_post
  rw [hr]
  simp [cleanL, pyStrip, dropEndWhile]

theorem get_og_image_post_none (join : String → String → String) (u : String)
    {body : String} (h : imageMetaL body.data = none) :
    get_og_image_post join u body = none := by
  unfold get_og_image_post
  rw [h]

/-- C9: every failure mode of the embedded lookups collapses to `none` — an
unsafe target, any fetch exception, a non-HTML content type, or the absence of
any extractable signal — and classifying absent text yields the default
category. -/
theorem lookups_fail_soft :
    (∀ url parsed resolve fetch, _is_safe_public_http_url parsed resolve = false →
      get_og_title_model url parsed resolve fetch = none) ∧
    (∀ url parsed resolve, get_og_title_model url parsed resolve .fail = none) ∧
    (∀ url parsed resolve ctype body,
      containsL "text/html".data (pyLower ctype.data) = false →
      get_og_title_model url parsed resolve (.ok ctype body) = none) ∧
    (∀ url parsed resolve ctype body, rawTitleOf body.data = none →
      get_og_title_model url parsed resolve (.ok ctype body) = none) ∧
    (∀ join url parsed resolve fetch,
      _is_safe_public_http_url parsed resolve = false →
      get_og_image_model join url parsed resolve fetch = none) ∧
    (∀ join url parsed resolve,
      get_og_image_model join url parsed resolve .fail = none) ∧
    (∀ join url parsed resolve ctype body,
      containsL "text/html".data (pyLower ctype.data) = false →
      get_og_image_model join url parsed resolve (.ok ctype body) = none) ∧
    (∀ join url parsed resolve ctype body, imageMetaL body.data = none →
      get_og_image_model join url parsed resolve (.ok ctype body) = none) ∧
    guess_category_from_text "" = DEFAULT_CATEGORY := by
  refine ⟨?_, ?_, ?_, ?_, ?_, ?_, ?_, ?_, by decide⟩
  · intro url parsed resolve fetch hsafe
    unfold get_og_title_model
    by_cases hu : url == ""
    · simp [hu]
    · simp [hu, hsafe]
  · intro url parsed resolve
    unfold get_og_title_model
    by_cases hu : url == ""
    · simp [hu]
    · by_cases hsafe : _is_safe_public_http_url parsed resolve <;>
        simp [hu, hsafe]
  · intro url parsed resolve ctype body hct
    unfold get_og_title_model
    by_cases hu : url == ""
    · simp [hu]
    · by_cases hsafe : _is_safe_public_http_url parsed resolve <;>
        simp [hu, hsafe, hct]
  · intro url parsed resolve ctype body hr
    unfold get_og_title_model
    by_cases hu : url == ""
    · simp [hu]
    · by_cases hsafe : _is_safe_public_http_url parsed resolve <;>
      by_cases hct : containsL "text/html".data (pyLower ctype.data) <;>
        simp [hu, hsafe, hct, get_og_title_post_none hr]
  · intro join url parsed resolve fetch hsafe
    unfold get_og_image_model
    by_cases hu : url == ""
    · simp [hu]
    · simp [hu, hsafe]
  · intro join url parsed resolve
    unfold get_og_image_model
    by_cases hu : url == ""
    · simp [hu]
    · by_cases hsafe : _is_safe_public_http_url parsed resolve <;>
        simp [hu, hsafe]
  · intro join url parsed resolve ctype body hct
    unfold get_og_image_model
    by_cases hu : url == ""
    · simp [hu]
    · by_cases hsafe : _is_safe_public_http_url parsed resolve <;>
        simp [hu, hsafe, hct]
  · intro join url parsed resolve ctype body hmeta
    unfold get_og_image_model
    by_cases hu : url == ""
    · simp [hu]
    · by_cases hsafe : _is_safe_public_http_url parsed resolve <;>
      by_cases hct : containsL "text/html".data (pyLower ctype.data) <;>
        simp [hu, hsafe, hct, get_og_image_post_none join _ hmeta]

/-- Witness for C9: a non-HTML content type yields no title even for a safe,
successfully fetched URL. -/
theorem lookups_fail_soft_witness :
    get_og_title_model "http://example.com/"
      (some ⟨"http", some "example.com"⟩)
      (fun _ => some ⟨93, 184, 216, 34⟩)
      (.ok "application/json" "<title>カレー</title>") = none :=
  lookups_fail_soft.2.2.1 "http://example.com/"
    (some ⟨"http", some "example.com"⟩)
    (fun _ => some ⟨93, 184, 216, 34⟩)
    "application/json" "<title>カレー</title>" (by decide)

/-! ## C10: the raw-title fallback -/

/-- C10: whenever the normalizer rejects the extracted raw title, the pipeline
returns the trimmed raw title exactly when its length is between 2 and 80
inclusive, and nothing otherwise. -/
theorem raw_title_fallback (html : String)
    (h : cleanL ((rawTitleOf html.data).getD []) = none) :
    get_og_title_post html =
      if 2 ≤ (pyStrip ((rawTitleOf html.data).getD [])).length ∧
          (pyStrip ((rawTitleOf html.data).getD [])).length ≤ 80 then
        some (String.mk (pyStrip ((rawTitleOf html.data).getD [])))
      else none := by
  unfold get_og_title_post
  rw [h]

/-- Witness for C10: the 70-character raw title is rejected by the normalizer
and returned through the fallback. -/
theorem raw_title_fallback_witness :
    cleanL ((rawTitleOf html70.data).getD []) = none ∧
    get_og_title_post html70 =
      (if 2 ≤ (pyStrip ((rawTitleOf html70.data).getD [])).length ∧
          (pyStrip ((rawTitleOf html70.data).getD [])).length ≤ 80 then
        some (String.mk (pyStrip ((rawTitleOf html70.data).getD [])))
      else none) :=
  ⟨by decide, raw_title_fallback html70 (by decide)⟩

end Recipon
